import Mathlib

/-!
Verification development for the voicemail drop-compliance pipeline.

Shallow embedding of the repository's core components:
* `utils.py` — `insert_voice_mail_at_drop` (the audio splicer),
* `voicemail_dropper.py` — the per-file chunk loop and decision engine,
* `detectors.py` — `BeepDetector` and `SilenceDetector` state machines,
* `llm.py` — the heuristic greeting-completeness fallback.

Audio samples are modelled as rationals (the source works on decoded
floating-point sample arrays; all the verified logic is exact arithmetic,
comparisons and list manipulation, so `ℚ` is the exact carrier). External
effects (FFT spectrum, WebRTC VAD, wall clock) are passed in as explicit
oracle arguments, mirroring the spec's design note that the detectors be
pure functions of `(state, chunk, current_time)`.
-/

/-! ## AudioSplicer — `utils.insert_voice_mail_at_drop` -/

/-- Python's `round` (banker's rounding, half to even), used by
`insert_voice_mail_at_drop` for `int(round(drop_time * sr_orig))`. -/
def pyRound (q : ℚ) : ℤ :=
  if q - ⌊q⌋ < 1/2 then ⌊q⌋
  else if (1 : ℚ)/2 < q - ⌊q⌋ then ⌊q⌋ + 1
  else if ⌊q⌋ % 2 = 0 then ⌊q⌋ else ⌊q⌋ + 1

/-- Insertion sample index from `utils.py`:
`idx = int(round(drop_time * sr_orig)) if drop_time >= 0 else 0` followed by
`idx = max(0, min(idx, orig.shape[0]))`. -/
def spliceIndex (drop_time : ℚ) (sr : ℕ) (origLen : ℕ) : ℕ :=
  (max 0 (min (if 0 ≤ drop_time then pyRound (drop_time * sr) else 0) (origLen : ℤ))).toNat

/-- Core of `utils.insert_voice_mail_at_drop`, for a clip already at the
original's sample rate and channel count (mono model):
`new_audio = np.concatenate([orig[:idx], vm, orig[idx:]])`.
The final `write_audio` persistence step is I/O and out of scope here. -/
def insert_voice_mail_at_drop (orig vm : List ℚ) (drop_time : ℚ) (sr : ℕ) : List ℚ :=
  orig.take (spliceIndex drop_time sr orig.length) ++ vm
    ++ orig.drop (spliceIndex drop_time sr orig.length)

lemma spliceIndex_le (drop_time : ℚ) (sr : ℕ) (origLen : ℕ) :
    spliceIndex drop_time sr origLen ≤ origLen := by
  unfold spliceIndex
  set a : ℤ := if 0 ≤ drop_time then pyRound (drop_time * sr) else 0 with ha
  have h1 : max 0 (min a (origLen : ℤ)) ≤ (origLen : ℤ) :=
    max_le (by exact_mod_cast Nat.zero_le origLen) (min_le_right _ _)
  omega

lemma splice_take {α : Type} (A B C : List α) {n : ℕ} (hA : A.length = n) :
    (A ++ B ++ C).take n = A := by
  rw [List.append_assoc, List.take_left' hA]

lemma splice_drop {α : Type} (A B C : List α) {n : ℕ} (hA : A.length = n) :
    (A ++ B ++ C).drop (n + B.length) = C := by
  have h : (A ++ B).length = n + B.length := by
    rw [List.length_append, hA]
  rw [List.drop_left' h]

lemma splice_mid {α : Type} (A B C : List α) {n : ℕ} (hA : A.length = n) :
    ((A ++ B ++ C).drop n).take B.length = B := by
  rw [List.append_assoc, List.drop_left' hA, List.take_left]

/-- C1: `insert_voice_mail_at_drop` is an exact splice: the output length is
`original_length + clip_length`; samples before the (clamped, rounded)
insertion index equal the original's prefix, samples after `index + clip_length`
equal the original's suffix, and the middle segment is exactly the clip —
no samples lost, duplicated, or crossfaded. -/
theorem insert_voice_mail_exact_splice (orig vm : List ℚ) (drop_time : ℚ) (sr : ℕ) :
    spliceIndex drop_time sr orig.length ≤ orig.length
    ∧ (insert_voice_mail_at_drop orig vm drop_time sr).length = orig.length + vm.length
    ∧ (insert_voice_mail_at_drop orig vm drop_time sr).take (spliceIndex drop_time sr orig.length)
        = orig.take (spliceIndex drop_time sr orig.length)
    ∧ (insert_voice_mail_at_drop orig vm drop_time sr).drop
        (spliceIndex drop_time sr orig.length + vm.length)
        = orig.drop (spliceIndex drop_time sr orig.length)
    ∧ ((insert_voice_mail_at_drop orig vm drop_time sr).drop
        (spliceIndex drop_time sr orig.length)).take vm.length = vm := by
  have hle : spliceIndex drop_time sr orig.length ≤ orig.length :=
    spliceIndex_le drop_time sr orig.length
  have hlenA : (orig.take (spliceIndex drop_time sr orig.length)).length
      = spliceIndex drop_time sr orig.length := by
    rw [List.length_take]
    exact Nat.min_eq_left hle
  have hdef : insert_voice_mail_at_drop orig vm drop_time sr
      = orig.take (spliceIndex drop_time sr orig.length) ++ vm
        ++ orig.drop (spliceIndex drop_time sr orig.length) := rfl
  refine ⟨hle, ?_, ?_, ?_, ?_⟩
  · rw [hdef]
    simp only [List.length_append, List.length_take, List.length_drop]
    omega
  · rw [hdef, splice_take _ _ _ hlenA]
  · rw [hdef, splice_drop _ _ _ hlenA]
  · rw [hdef, splice_mid _ _ _ hlenA]

/-! ## Chunking — `voicemail_dropper.process_audio_stream` loop bounds -/

/-- `chunk_size = int(sample_rate * 0.1)` (for the integral sample rates in
scope, `int(sr * 0.1) = sr / 10` in integer division). -/
def chunk_size (sr : ℕ) : ℕ := sr / 10

/-- `total_chunks = len(audio) // chunk_size`. -/
def total_chunks (audioLen sr : ℕ) : ℕ := audioLen / chunk_size sr

/-- `chunk = audio[i * chunk_size : (i + 1) * chunk_size]`. -/
def chunkAt (audio : List ℚ) (sr i : ℕ) : List ℚ :=
  (audio.drop (i * chunk_size sr)).take (chunk_size sr)

/-- The chunks actually fed to the detectors: indices `0 .. total_chunks - 1`
from `for i in range(total_chunks)`. -/
def processedChunks (audio : List ℚ) (sr : ℕ) : List (List ℚ) :=
  (List.range (total_chunks audio.length sr)).map (chunkAt audio sr)

/-- C3 counterexample: a 17-sample stream at sample rate 100 has
`chunk_size = 10` and `total_chunks = 17 // 10 = 1`, so the trailing
7 samples form a nonempty final chunk (shorter than 0.1s) that is NOT among
the processed chunks — the loop discards it, contradicting the claim that any
nonempty final chunk at end-of-stream is included in the per-chunk loop. -/
theorem final_chunk_dropped_counterexample :
    ((List.replicate 17 (0 : ℚ)).drop (total_chunks 17 100 * chunk_size 100)).length = 7
    ∧ ((List.replicate 17 (0 : ℚ)).drop (total_chunks 17 100 * chunk_size 100))
        ∉ processedChunks (List.replicate 17 (0 : ℚ)) 100 := by
  decide

lemma chunkLen_full (audio : List ℚ) (cs i : ℕ) (hi : i < audio.length / cs) :
    ((audio.drop (i * cs)).take cs).length = cs := by
  have h2 : (i + 1) * cs ≤ (audio.length / cs) * cs :=
    Nat.mul_le_mul_right cs hi
  have h3 : (audio.length / cs) * cs ≤ audio.length := Nat.div_mul_le_self _ _
  have h4 : i * cs + cs ≤ audio.length := by
    have h5 : i * cs + cs = (i + 1) * cs := by ring
    omega
  rw [List.length_take, List.length_drop]
  omega

lemma chunks_flatten (audio : List ℚ) (cs : ℕ) :
    ∀ n : ℕ, ((List.range n).map (fun i => (audio.drop (i * cs)).take cs)).flatten
      = audio.take (n * cs) := by
  intro n
  induction n with
  | zero => simp
  | succ m ih =>
    rw [List.range_succ, List.map_append, List.flatten_append, ih]
    simp only [List.map_cons, List.map_nil, List.flatten_cons, List.flatten_nil,
      List.append_nil]
    rw [Nat.succ_mul, List.take_add]

lemma tail_lt (len cs : ℕ) (hcs : 0 < cs) : len - (len / cs) * cs < cs := by
  have hdm : len / cs * cs + len % cs = len := Nat.div_add_mod' len cs
  have hmlt : len % cs < cs := Nat.mod_lt _ hcs
  set X := len / cs * cs with hX
  omega

/-- C3 amended: the loop processes exactly `total_chunks` full chunks of
`chunk_size` samples each, covering precisely the first
`total_chunks * chunk_size` samples; the final partial chunk (fewer than
`chunk_size` samples) is discarded, never entering the per-chunk loop. -/
theorem chunking_discards_final_chunk (audio : List ℚ) (sr : ℕ)
    (hcs : 0 < chunk_size sr) :
    (∀ c ∈ processedChunks audio sr, c.length = chunk_size sr)
    ∧ (processedChunks audio sr).flatten
        = audio.take (total_chunks audio.length sr * chunk_size sr)
    ∧ audio.length - total_chunks audio.length sr * chunk_size sr < chunk_size sr := by
  refine ⟨?_, ?_, ?_⟩
  · intro c hc
    unfold processedChunks at hc
    rcases List.mem_map.mp hc with ⟨i, hi, rfl⟩
    rw [List.mem_range] at hi
    unfold total_chunks at hi
    exact chunkLen_full audio (chunk_size sr) i hi
  · unfold processedChunks chunkAt
    exact chunks_flatten audio (chunk_size sr) (total_chunks audio.length sr)
  · unfold total_chunks
    exact tail_lt audio.length (chunk_size sr) hcs

/-- Witness for the amended chunking theorem at a concrete stream:
20 samples at sample rate 100 — two full chunks, empty remainder. -/
theorem chunking_discards_final_chunk_witness :
    0 < chunk_size 100
    ∧ (processedChunks (List.replicate 20 (0 : ℚ)) 100).flatten
        = (List.replicate 20 (0 : ℚ)).take
            (total_chunks (List.replicate 20 (0 : ℚ)).length 100 * chunk_size 100) :=
  ⟨by decide, (chunking_discards_final_chunk (List.replicate 20 (0 : ℚ)) 100 (by decide)).2.1⟩

/-! ## DropDecisionEngine — `voicemail_dropper.process_audio_stream` -/

/-- The closed set of trigger reasons. -/
inductive Reason
  | beep_detected
  | silence_and_complete_greeting
  | end_of_speech
  | end_of_audio
deriving Repr, DecidableEq

/-- Per-chunk observations of the engine's collaborators: the outputs of
`BeepDetector.process_chunk`, `SilenceDetector.process_chunk`
(`silence_duration`), the current context length from
`stt_processor.get_current_context()`, and the oracle's verdict
`llm_analyzer.is_greeting_complete(context)`, together with the
`SilenceDetector.last_speech_time` / `self.start_time` wall-clock values read
by the end-of-stream fallback. -/
structure StreamEnv where
  beepOut : ℕ → Bool
  silenceOut : ℕ → ℚ
  ctxLen : ℕ → ℕ
  oracleOut : ℕ → Bool
  lastSpeechTime : ℚ
  startTime : ℚ

/-- The untriggered per-chunk decision from the loop body:
`if beep_detected: trigger("beep_detected")`
`elif silence_duration >= 0.6: if context and len(context) > 10:`
`  if is_greeting_complete(context): trigger("silence_and_complete_greeting")`.
(A context of length > 10 is in particular nonempty, so the truthiness test
`current_context and ...` collapses to the length test.) -/
def decideChunk (beep : Bool) (silenceDur : ℚ) (ctxLen : ℕ) (oracle : Bool) : Option Reason :=
  if beep then some Reason.beep_detected
  else if 3/5 ≤ silenceDur then
    if 10 < ctxLen then
      if oracle then some Reason.silence_and_complete_greeting else none
    else none
  else none

/-- The decision the engine reaches on chunk `i`, given the collaborators. -/
def chunkDecision (env : StreamEnv) (i : ℕ) : Option Reason :=
  decideChunk (env.beepOut i) (env.silenceOut i) (env.ctxLen i) (env.oracleOut i)

/-- `for i in range(total_chunks)` starting at chunk `i` with `n` chunks left:
the first chunk that triggers ends the loop (`break`) with
`trigger_time = processed_duration = (i + 1) * 0.1`. -/
def runChunks (env : StreamEnv) : ℕ → ℕ → Option (ℚ × Reason)
  | _, 0 => none
  | i, n + 1 =>
    match chunkDecision env i with
    | some r => some ((((i + 1) : ℕ) : ℚ) / 10, r)
    | none => runChunks env (i + 1) n

/-- `process_audio_stream`: decode (`none` models the caught decode
exception, returning `(None, None)`); otherwise run the chunk loop and, if it
exhausts untriggered, emit the end-of-stream fallback
(`silence_detector` is always non-`None` on the successful-decode path). -/
def process_audio_stream (decoded : Option (ℕ × ℕ)) (env : StreamEnv) :
    Option ℚ × Option Reason :=
  match decoded with
  | none => (none, none)
  | some (audioLen, sr) =>
    match runChunks env 0 (total_chunks audioLen sr) with
    | some (t, r) => (some t, some r)
    | none =>
      if env.startTime + 1 < env.lastSpeechTime then
        (some (((audioLen : ℚ) / (sr : ℚ)) * (9/10)), some Reason.end_of_speech)
      else
        (some (((audioLen : ℚ) / (sr : ℚ)) * (9/10)), some Reason.end_of_audio)

lemma runChunks_first (env : StreamEnv) :
    ∀ (k i n : ℕ), k < n → (∀ j, j < k → chunkDecision env (i + j) = none) →
    ∀ r, chunkDecision env (i + k) = some r →
    runChunks env i n = some ((((i + k + 1) : ℕ) : ℚ) / 10, r) := by
  intro k
  induction k with
  | zero =>
    intro i n hn _ r hr
    obtain ⟨m, rfl⟩ : ∃ m, n = m + 1 := ⟨n - 1, by omega⟩
    simp only [runChunks]
    rw [Nat.add_zero] at hr
    rw [hr]
  | succ p ih =>
    intro i n hn hnone r hr
    obtain ⟨m, rfl⟩ : ∃ m, n = m + 1 := ⟨n - 1, by omega⟩
    have h0 : chunkDecision env i = none := by
      have := hnone 0 (Nat.succ_pos p)
      simpa using this
    simp only [runChunks, h0]
    have hr' : chunkDecision env (i + 1 + p) = some r := by
      have : i + 1 + p = i + (p + 1) := by omega
      rw [this]; exact hr
    have hnone' : ∀ j, j < p → chunkDecision env (i + 1 + j) = none := by
      intro j hj
      have : i + 1 + j = i + (j + 1) := by omega
      rw [this]
      exact hnone (j + 1) (by omega)
    have := ih (i + 1) m (by omega) hnone' r hr'
    rw [this]
    norm_num
    ring_nf

/-- C2: beep has absolute priority in the idle state. A chunk on which the
beep detector confirms always yields the reason `beep_detected` regardless of
the silence-duration and context/oracle observations on that same chunk (the
silence/oracle branch is an `elif`, only reached when the beep branch did not
fire); and if chunk `i` is the first chunk that decides anything and the beep
fired there, the stream decision is `beep_detected` with timestamp
`(i + 1) * 0.1` (chunks processed so far times the 0.1s chunk duration). -/
theorem beep_priority_in_idle :
    (∀ (silenceDur : ℚ) (ctxLen : ℕ) (oracle : Bool),
      decideChunk true silenceDur ctxLen oracle = some Reason.beep_detected)
    ∧ (∀ (env : StreamEnv) (n i : ℕ), i < n →
        (∀ j, j < i → chunkDecision env j = none) →
        env.beepOut i = true →
        runChunks env 0 n = some ((((i + 1) : ℕ) : ℚ) / 10, Reason.beep_detected)) := by
  constructor
  · intro silenceDur ctxLen oracle
    simp [decideChunk]
  · intro env n i hn hnone hbeep
    have hdec : chunkDecision env (0 + i) = some Reason.beep_detected := by
      simp only [Nat.zero_add, chunkDecision, hbeep]
      simp [decideChunk]
    have hnone' : ∀ j, j < i → chunkDecision env (0 + j) = none := by
      intro j hj; simpa using hnone j hj
    have := runChunks_first env i 0 n hn hnone' Reason.beep_detected hdec
    simpa using this

/-- A concrete environment where the beep fires on the very first chunk while
the silence-and-complete-greeting condition also holds there. -/
def envBeepFirst : StreamEnv :=
  { beepOut := fun _ => true
    silenceOut := fun _ => 1
    ctxLen := fun _ => 20
    oracleOut := fun _ => true
    lastSpeechTime := 0
    startTime := 0 }

theorem beep_priority_in_idle_witness :
    (0 : ℕ) < 5
    ∧ envBeepFirst.beepOut 0 = true
    ∧ runChunks envBeepFirst 0 5 = some ((((0 + 1) : ℕ) : ℚ) / 10, Reason.beep_detected) :=
  ⟨Nat.succ_pos 4, rfl,
    beep_priority_in_idle.2 envBeepFirst 5 0 (Nat.succ_pos 4)
      (fun j hj => absurd hj (Nat.not_lt_zero j)) rfl⟩

/-- C5: if the chunk loop exhausts without a trigger, exactly one fallback
decision is emitted: reason `end_of_speech` when the recorded last speech time
exceeds the stream start time by more than 1.0s, else `end_of_audio`; in both
cases the timestamp is `0.9 × total_duration` where
`total_duration = len(audio) / sample_rate`. -/
theorem end_of_stream_fallback (audioLen sr : ℕ) (env : StreamEnv)
    (h : runChunks env 0 (total_chunks audioLen sr) = none) :
    process_audio_stream (some (audioLen, sr)) env =
      (some (((audioLen : ℚ) / (sr : ℚ)) * (9/10)),
       some (if env.startTime + 1 < env.lastSpeechTime then Reason.end_of_speech
             else Reason.end_of_audio)) := by
  simp only [process_audio_stream]
  rw [h]
  by_cases hc : env.startTime + 1 < env.lastSpeechTime
  · simp [hc]
  · simp [hc]

/-- A concrete environment where nothing ever triggers. -/
def envQuiet : StreamEnv :=
  { beepOut := fun _ => false
    silenceOut := fun _ => 0
    ctxLen := fun _ => 0
    oracleOut := fun _ => false
    lastSpeechTime := 0
    startTime := 0 }

theorem end_of_stream_fallback_witness :
    runChunks envQuiet 0 (total_chunks 100 100) = none
    ∧ process_audio_stream (some (100, 100)) envQuiet =
      (some (((100 : ℚ) / (100 : ℚ)) * (9/10)),
       some (if envQuiet.startTime + 1 < envQuiet.lastSpeechTime then Reason.end_of_speech
             else Reason.end_of_audio)) := by
  have hnone : runChunks envQuiet 0 (total_chunks 100 100) = none := by
    norm_num [runChunks, chunkDecision, decideChunk, envQuiet, total_chunks, chunk_size]
  exact ⟨hnone, end_of_stream_fallback 100 100 envQuiet hnone⟩

/-! ## Batch orchestration — `voicemail_dropper.process_directory` -/

/-- Per-file status recorded by `process_directory`. -/
inductive Status
  | SUCCESS
  | FAILED
deriving Repr, DecidableEq

/-- The per-file result record
`{'timestamp': ..., 'reason': ..., 'status': ..., 'output_file': ...}`. -/
structure FileResult where
  timestamp : Option ℚ
  reason : Option Reason
  status : Status
  output_file : Option String
deriving Repr

/-- One input file of the batch: its base name, its decode outcome (`none`
models an undecodable file), the collaborator observations for its stream,
and whether `insert_voice_mail_at_drop` succeeds for it (`false` models the
caught insertion exception). -/
structure FileSpec where
  name : String
  decoded : Option (ℕ × ℕ)
  env : StreamEnv
  insertOk : Bool

/-- The body of the `for filename in sorted(audio_files)` loop:
run `process_audio_stream`; if the timestamp is non-`None`, attempt the
insertion (status `SUCCESS`, or `FAILED` on a caught insertion error);
otherwise record a `FAILED` result with no timestamp and no output file. -/
def processFile (f : FileSpec) : FileResult :=
  match process_audio_stream f.decoded f.env with
  | (some t, r) =>
    { timestamp := some t, reason := r,
      status := if f.insertOk then Status.SUCCESS else Status.FAILED,
      output_file := some (f.name ++ "_dropped.wav") }
  | (none, r) =>
    { timestamp := none, reason := r, status := Status.FAILED, output_file := none }

/-- `process_directory`: every file in the list is processed and recorded;
no per-file failure aborts the batch. -/
def process_directory (files : List FileSpec) : List (String × FileResult) :=
  files.map fun f => (f.name, processFile f)

/-- C9: an undecodable input yields the null decision `(None, None)` from
`process_audio_stream` (the decode exception is caught, not propagated);
`process_directory` records that file with status `FAILED`, a `None`
timestamp and no output file, and still produces one result per input file,
so a per-file decode failure never aborts the batch. -/
theorem decode_failure_null_decision :
    (∀ env : StreamEnv, process_audio_stream none env = (none, none))
    ∧ (∀ files : List FileSpec, (process_directory files).length = files.length)
    ∧ (∀ (files : List FileSpec) (f : FileSpec), f ∈ files → f.decoded = none →
        (f.name, ({ timestamp := none, reason := none, status := Status.FAILED,
                    output_file := none } : FileResult)) ∈ process_directory files) := by
  refine ⟨fun env => rfl, fun files => List.length_map _ _, ?_⟩
  intro files f hf hdec
  have hres : processFile f =
      { timestamp := none, reason := none, status := Status.FAILED, output_file := none } := by
    unfold processFile
    rw [hdec]
    rfl
  unfold process_directory
  rw [← hres]
  exact List.mem_map.mpr ⟨f, hf, rfl⟩

/-- A concrete batch: one undecodable file followed by one decodable file. -/
def badFile : FileSpec :=
  { name := "greeting1", decoded := none, env := envQuiet, insertOk := true }

/-- A decodable companion file in the same batch. -/
def goodFile : FileSpec :=
  { name := "greeting2", decoded := some (100, 100), env := envQuiet, insertOk := true }

theorem decode_failure_null_decision_witness :
    badFile.decoded = none
    ∧ ("greeting1", ({ timestamp := none, reason := none, status := Status.FAILED,
                       output_file := none } : FileResult))
        ∈ process_directory [badFile, goodFile] :=
  ⟨rfl, decode_failure_null_decision.2.2 [badFile, goodFile] badFile
    (List.mem_cons_self badFile [goodFile]) rfl⟩

/-! ## BeepDetector — `detectors.BeepDetector.process_chunk`

The FFT front end (`np.fft.fft` of the Hann-windowed chunk and the band /
total magnitude sums) is real-valued signal processing that has no exact
rational form, so it is abstracted as a `spectrum` oracle returning the pair
`(energy, total_energy)` for a chunk; everything downstream of those two
numbers — the thresholds, the rolling-average debounce and the candidate
timestamp logic — is embedded exactly. The wall clock (`time.time()`) is the
explicit `now` argument. -/

/-- Mutable state of `BeepDetector` (`__init__` / `reset`). The constants
`min_beep_duration = 0.3` and `min_beep_count = 2` are inlined. -/
structure BeepState where
  beep_detected : Bool
  last_beep_time : Option ℚ
  confidence : ℚ
  recent_beep_detections : List ℚ
  recent_energies : List ℚ
deriving Repr, DecidableEq

/-- `BeepDetector.__init__` / `BeepDetector.reset()`. -/
def BeepDetector.initState : BeepState :=
  { beep_detected := false, last_beep_time := none, confidence := 0,
    recent_beep_detections := [], recent_energies := [] }

/-- `np.max(np.abs(audio_chunk))` (guarded by the nonempty check upstream). -/
def maxAbs (chunk : List ℚ) : ℚ := (chunk.map (fun x => |x|)).foldr max 0

/-- `self.recent_energies.append(ratio)` followed by
`if len(self.recent_energies) > 5: self.recent_energies.pop(0)`. -/
def beepNewEnergies (s : BeepState) (ratio : ℚ) : List ℚ :=
  if 5 < (s.recent_energies ++ [ratio]).length then (s.recent_energies ++ [ratio]).tail
  else s.recent_energies ++ [ratio]

/-- `avg_energy = sum(self.recent_energies) / len(self.recent_energies)`
after the append/cap above. -/
def beepAvg (s : BeepState) (ratio : ℚ) : ℚ :=
  (beepNewEnergies s ratio).sum / ((beepNewEnergies s ratio).length : ℚ)

/-- `BeepDetector.process_chunk(audio_chunk, sample_rate)` (mono model).
`spectrum chunk = (energy, total_energy)` stands for the FFT band/total
magnitude sums. The two nested confirmation `if`s of the source are written
as one conjunction: both failure paths fall through to `return False` with
identical state. The three `time.time()` reads on the confirmation path are
the single `now`. -/
def BeepDetector.process_chunk (spectrum : List ℚ → ℚ × ℚ) (s : BeepState)
    (chunk : List ℚ) (now : ℚ) : BeepState × Bool :=
  if chunk.length = 0 then (s, false)
  else if chunk.length < 1024 then (s, false)
  else
    let energy := (spectrum chunk).1
    let total_energy := (spectrum chunk).2
    if 0 < total_energy ∧ 2/25 < energy / total_energy ∧ 1/10 < maxAbs chunk then
      let energies := beepNewEnergies s (energy / total_energy)
      let avg_energy := beepAvg s (energy / total_energy)
      if 2/25 < avg_energy then
        let cands := s.recent_beep_detections ++ [now]
        if 2 ≤ cands.length ∧ now - cands.headD 0 < 3/10 then
          ({ beep_detected := true, last_beep_time := some now,
             confidence := min 1 avg_energy,
             recent_beep_detections := [], recent_energies := energies }, true)
        else
          ({ s with recent_energies := energies, recent_beep_detections := cands }, false)
      else
        ({ s with recent_energies := energies }, false)
    else
      (s, false)

/-- Fold of `process_chunk` over a list of `(chunk, time)` inputs, recording
whether any call confirmed a beep. -/
def runBeep (spectrum : List ℚ → ℚ × ℚ) : BeepState → List (List ℚ × ℚ) → BeepState × Bool
  | s, [] => (s, false)
  | s, (c, t) :: rest =>
    let step := BeepDetector.process_chunk spectrum s c t
    let tailRes := runBeep spectrum step.1 rest
    (tailRes.1, step.2 || tailRes.2)

/-- C8: a chunk with fewer than 1024 samples (including the empty chunk) is
rejected before any analysis: `process_chunk` returns `false` and every field
of the detector state is left unchanged. -/
theorem beep_short_chunk_no_effect (spectrum : List ℚ → ℚ × ℚ) (s : BeepState)
    (chunk : List ℚ) (now : ℚ) (hshort : chunk.length < 1024) :
    BeepDetector.process_chunk spectrum s chunk now = (s, false) := by
  unfold BeepDetector.process_chunk
  by_cases h0 : chunk.length = 0
  · simp [h0]
  · simp [h0, hshort]

/-- Spectrum oracle that reports no energy anywhere; used by concrete
witnesses. -/
def zeroSpectrum : List ℚ → ℚ × ℚ := fun _ => (0, 0)

theorem beep_short_chunk_no_effect_witness :
    (List.replicate 100 (0 : ℚ)).length < 1024
    ∧ BeepDetector.process_chunk zeroSpectrum BeepDetector.initState
        (List.replicate 100 (0 : ℚ)) 0 = (BeepDetector.initState, false) :=
  ⟨by simp, beep_short_chunk_no_effect zeroSpectrum BeepDetector.initState
    (List.replicate 100 (0 : ℚ)) 0 (by simp)⟩

lemma beep_step_true_facts (spectrum : List ℚ → ℚ × ℚ) (s : BeepState)
    (chunk : List ℚ) (now : ℚ)
    (h : (BeepDetector.process_chunk spectrum s chunk now).2 = true) :
    2 ≤ s.recent_beep_detections.length + 1
    ∧ now - (s.recent_beep_detections ++ [now]).headD 0 < 3/10
    ∧ (BeepDetector.process_chunk spectrum s chunk now).1.recent_beep_detections = []
    ∧ (BeepDetector.process_chunk spectrum s chunk now).1.confidence
        = min 1 (beepAvg s ((spectrum chunk).1 / (spectrum chunk).2))
    ∧ (BeepDetector.process_chunk spectrum s chunk now).1.beep_detected = true := by
  simp only [BeepDetector.process_chunk] at h ⊢
  split_ifs at h ⊢ with h0 h1 hq ha hc
  rcases hc with ⟨hcount, hspan⟩
  simp only [List.length_append, List.length_singleton] at hcount
  exact ⟨hcount, hspan, rfl, rfl, rfl⟩

lemma beep_step_empty_false (spectrum : List ℚ → ℚ × ℚ) (s : BeepState)
    (chunk : List ℚ) (now : ℚ) (hemp : s.recent_beep_detections = []) :
    (BeepDetector.process_chunk spectrum s chunk now).2 = false := by
  simp only [BeepDetector.process_chunk]
  split_ifs with h0 h1 hq ha hc
  · rfl
  · rfl
  · exfalso
    rcases hc with ⟨hcount, _⟩
    rw [hemp] at hcount
    simp at hcount
  · rfl
  · rfl
  · rfl

lemma beep_step_cands_shape (spectrum : List ℚ → ℚ × ℚ) (s : BeepState)
    (chunk : List ℚ) (now : ℚ) :
    ((BeepDetector.process_chunk spectrum s chunk now).1.recent_beep_detections = []
        ∧ (BeepDetector.process_chunk spectrum s chunk now).2 = true)
    ∨ (BeepDetector.process_chunk spectrum s chunk now).1.recent_beep_detections
        = s.recent_beep_detections ++ [now]
    ∨ (BeepDetector.process_chunk spectrum s chunk now).1.recent_beep_detections
        = s.recent_beep_detections := by
  simp only [BeepDetector.process_chunk]
  split_ifs
  · right; right; rfl
  · right; right; rfl
  · left; exact ⟨rfl, rfl⟩
  · right; left; rfl
  · right; right; rfl
  · right; right; rfl

lemma beep_step_head_far (spectrum : List ℚ → ℚ × ℚ) (s : BeepState)
    (chunk : List ℚ) (now h : ℚ)
    (hh : s.recent_beep_detections.head? = some h) (hfar : h + 3/10 ≤ now) :
    (BeepDetector.process_chunk spectrum s chunk now).2 = false
    ∧ (BeepDetector.process_chunk spectrum s chunk now).1.recent_beep_detections.head?
        = some h := by
  rcases hcands : s.recent_beep_detections with _ | ⟨a, tl⟩
  · rw [hcands] at hh; simp at hh
  · rw [hcands] at hh
    simp only [List.head?_cons, Option.some.injEq] at hh
    subst hh
    simp only [BeepDetector.process_chunk]
    split_ifs with h0 h1 hq ha hc
    · exact ⟨rfl, by simp [hcands]⟩
    · exact ⟨rfl, by simp [hcands]⟩
    · exfalso
      rcases hc with ⟨_, hspan⟩
      rw [hcands] at hspan
      simp only [List.cons_append, List.headD_cons] at hspan
      linarith
    · refine ⟨rfl, ?_⟩
      simp [hcands]
    · exact ⟨rfl, by simp [hcands]⟩
    · exact ⟨rfl, by simp [hcands]⟩

lemma runBeep_head_far (spectrum : List ℚ → ℚ × ℚ) (h : ℚ) :
    ∀ (inputs : List (List ℚ × ℚ)) (s : BeepState),
    s.recent_beep_detections.head? = some h →
    (∀ p ∈ inputs, h + 3/10 ≤ p.2) →
    (runBeep spectrum s inputs).2 = false := by
  intro inputs
  induction inputs with
  | nil => intro s _ _; rfl
  | cons p rest ih =>
    intro s hh hfar
    obtain ⟨c, t⟩ := p
    have hstep := beep_step_head_far spectrum s c t h hh
      (hfar (c, t) (List.mem_cons_self _ _))
    have htail := ih (BeepDetector.process_chunk spectrum s c t).1 hstep.2
      (fun q hq => hfar q (List.mem_cons_of_mem _ hq))
    simp only [runBeep]
    rw [hstep.1, htail]
    rfl

/-- C4: beep confirmation (`process_chunk` returning `true`) happens only
when the candidate-timestamp list has reached ≥ 2 entries (counting the one
appended for the current chunk) and the span from the oldest candidate to the
current time is < 0.3s; on confirmation the detector sets
`confidence = min(1.0, rolling average of the ≤ 5 most recent qualifying
energy ratios)`, sets `beep_detected`, clears the candidate list and returns
`true`. Starting from an empty candidate list, a single chunk never confirms,
and two chunks whose times are ≥ 0.3s apart never confirm. -/
theorem beep_confirmation_debounce :
    (∀ (spectrum : List ℚ → ℚ × ℚ) (s : BeepState) (chunk : List ℚ) (now : ℚ),
      (BeepDetector.process_chunk spectrum s chunk now).2 = true →
      2 ≤ s.recent_beep_detections.length + 1
      ∧ now - (s.recent_beep_detections ++ [now]).headD 0 < 3/10
      ∧ (BeepDetector.process_chunk spectrum s chunk now).1.recent_beep_detections = []
      ∧ (BeepDetector.process_chunk spectrum s chunk now).1.confidence
          = min 1 (beepAvg s ((spectrum chunk).1 / (spectrum chunk).2))
      ∧ (BeepDetector.process_chunk spectrum s chunk now).1.beep_detected = true)
    ∧ (∀ (spectrum : List ℚ → ℚ × ℚ) (s : BeepState) (chunk : List ℚ) (now : ℚ),
        s.recent_beep_detections = [] →
        (BeepDetector.process_chunk spectrum s chunk now).2 = false)
    ∧ (∀ (spectrum : List ℚ → ℚ × ℚ) (s : BeepState) (c₁ c₂ : List ℚ) (t₁ t₂ : ℚ),
        s.recent_beep_detections = [] → t₁ + 3/10 ≤ t₂ →
        (BeepDetector.process_chunk spectrum
          (BeepDetector.process_chunk spectrum s c₁ t₁).1 c₂ t₂).2 = false) := by
  refine ⟨beep_step_true_facts, beep_step_empty_false, ?_⟩
  intro spectrum s c₁ c₂ t₁ t₂ hemp hfar
  rcases beep_step_cands_shape spectrum s c₁ t₁ with ⟨hcl, _⟩ | hap | hsame
  · exact beep_step_empty_false spectrum _ c₂ t₂ hcl
  · have hh : (BeepDetector.process_chunk spectrum s c₁ t₁).1.recent_beep_detections.head?
        = some t₁ := by
      rw [hap, hemp]
      rfl
    exact (beep_step_head_far spectrum _ c₂ t₂ t₁ hh hfar).1
  · exact beep_step_empty_false spectrum _ c₂ t₂ (by rw [hsame, hemp])

theorem beep_confirmation_debounce_witness :
    BeepDetector.initState.recent_beep_detections = []
    ∧ (0 : ℚ) + 3/10 ≤ 1
    ∧ (BeepDetector.process_chunk zeroSpectrum
        (BeepDetector.process_chunk zeroSpectrum BeepDetector.initState [] 0).1 [] 1).2
        = false :=
  ⟨rfl, by norm_num,
    beep_confirmation_debounce.2.2 zeroSpectrum BeepDetector.initState [] [] 0 1 rfl
      (by norm_num)⟩

/-- A detector state whose candidate list is headed by a stale candidate at
time 0; used by the C10 witness. -/
def staleBeepState : BeepState :=
  { beep_detected := false, last_beep_time := none, confidence := 0,
    recent_beep_detections := [0], recent_energies := [] }

/-- C10: `process_chunk` removes candidate timestamps only on a confirmed
detection (or an explicit reset): on every `false` return the old candidate
list is an initial segment of the new one (entries are only appended), so the
span check is always measured from the earliest candidate since the last
confirmation/reset — and once a candidate `h` heads the list, no call made at
a time ≥ `h + 0.3s` ever confirms, regardless of how close together later
qualifying chunks are. -/
theorem beep_candidates_persist_until_reset :
    (∀ (spectrum : List ℚ → ℚ × ℚ) (s : BeepState) (chunk : List ℚ) (now : ℚ),
      (BeepDetector.process_chunk spectrum s chunk now).2 = false →
      ∃ l : List ℚ,
        (BeepDetector.process_chunk spectrum s chunk now).1.recent_beep_detections
          = s.recent_beep_detections ++ l)
    ∧ (∀ (spectrum : List ℚ → ℚ × ℚ) (s : BeepState) (h : ℚ)
        (inputs : List (List ℚ × ℚ)),
        s.recent_beep_detections.head? = some h →
        (∀ p ∈ inputs, h + 3/10 ≤ p.2) →
        (runBeep spectrum s inputs).2 = false) := by
  constructor
  · intro spectrum s chunk now hfalse
    rcases beep_step_cands_shape spectrum s chunk now with ⟨_, htrue⟩ | hap | hsame
    · rw [hfalse] at htrue
      exact absurd htrue (by simp)
    · exact ⟨[now], hap⟩
    · exact ⟨[], by rw [hsame, List.append_nil]⟩
  · intro spectrum s h inputs hh hfar
    exact runBeep_head_far spectrum h inputs s hh hfar

theorem beep_candidates_persist_until_reset_witness :
    staleBeepState.recent_beep_detections.head? = some 0
    ∧ (runBeep zeroSpectrum staleBeepState [([], 1), ([], 11/10)]).2 = false :=
  ⟨rfl,
    beep_candidates_persist_until_reset.2 zeroSpectrum staleBeepState 0
      [([], 1), ([], 11/10)] rfl
      (by
        intro p hp
        rcases List.mem_cons.mp hp with h1 | h2
        · rw [h1]; norm_num
        · rcases List.mem_cons.mp h2 with h3 | h4
          · rw [h3]; norm_num
          · simp at h4)⟩

/-! ## SilenceDetector — `detectors.SilenceDetector.process_chunk`

The WebRTC VAD (`self.vad.is_speech(...)`) is an external binary classifier;
it is the `vad : Bool` oracle argument here (classifier exceptions map to
non-speech in the source and are absorbed into that oracle). The peak
normalisation and int16 conversion only affect what the classifier sees, so
they too are absorbed into the oracle. The wall clock is the explicit `now`
argument. -/

/-- Mutable state of `SilenceDetector` (`__init__` with `sample_rate`). -/
structure SilenceState where
  sample_rate : ℕ
  silence_start : Option ℚ
  last_speech_time : ℚ
  silence_duration : ℚ
  speech_active : Bool
  consecutive_silence : ℕ
  consecutive_speech : ℕ
deriving Repr, DecidableEq

/-- `SilenceDetector.__init__(sample_rate)` at construction time `now`. -/
def SilenceDetector.init (sr : ℕ) (now : ℚ) : SilenceState :=
  { sample_rate := sr, silence_start := none, last_speech_time := now,
    silence_duration := 0, speech_active := false,
    consecutive_silence := 0, consecutive_speech := 0 }

/-- `SilenceDetector.reset()` at time `now`. -/
def SilenceDetector.reset (s : SilenceState) (now : ℚ) : SilenceState :=
  { s with silence_start := none, last_speech_time := now,
           silence_duration := 0, speech_active := false,
           consecutive_silence := 0, consecutive_speech := 0 }

/-- `frame_size = int(self.sample_rate * 0.03)` (for the integral sample
rates in scope this is `3 * sr / 100` in integer division). -/
def frame_size (sr : ℕ) : ℕ := 3 * sr / 100

/-- `SilenceDetector.process_chunk(audio_chunk)`, returning the new state and
the returned `silence_duration`. `chunkLen` is `len(audio_chunk)`; `vad` is
the classifier verdict on the 30ms frame (the source only consults it when
`len(audio_int16) >= frame_size`, and treats classifier failure as
non-speech). The Python truthiness test `elif self.silence_start:` is
`silence_start.getD 0 ≠ 0` (both `None` and a 0.0 timestamp are falsy). -/
def SilenceDetector.process_chunk (s : SilenceState) (chunkLen : ℕ) (vad : Bool)
    (now : ℚ) : SilenceState × ℚ :=
  if chunkLen = 0 then (s, s.silence_duration)
  else
    let is_speech := decide (frame_size s.sample_rate ≤ chunkLen) && vad
    if is_speech then
      let s1 := { s with consecutive_speech := s.consecutive_speech + 1,
                         consecutive_silence := 0 }
      if 2 ≤ s1.consecutive_speech then
        let s2 := { s1 with speech_active := true, last_speech_time := now,
                            silence_start := none, silence_duration := 0 }
        (s2, s2.silence_duration)
      else (s1, s1.silence_duration)
    else
      let s1 := { s with consecutive_silence := s.consecutive_silence + 1,
                         consecutive_speech := 0 }
      if 3 ≤ s1.consecutive_silence then
        if s1.speech_active then
          let s2 := { s1 with silence_start := some now, speech_active := false }
          (s2, s2.silence_duration)
        else if s1.silence_start.getD 0 ≠ 0 then
          let s2 := { s1 with silence_duration := now - s1.silence_start.getD 0 }
          (s2, s2.silence_duration)
        else (s1, s1.silence_duration)
      else (s1, s1.silence_duration)

/-- The state/time invariant of the silence detector: a nonzero
`silence_duration` implies speech is inactive and a silence timer exists, and
any recorded duration never exceeds the time elapsed since `silence_start`. -/
def SilenceInv (s : SilenceState) (t : ℚ) : Prop :=
  (s.silence_duration ≠ 0 → s.speech_active = false ∧ s.silence_start ≠ none)
  ∧ (∀ st : ℚ, s.silence_start = some st → s.silence_duration ≤ t - st)

lemma silenceInv_init (sr : ℕ) (now t : ℚ) : SilenceInv (SilenceDetector.init sr now) t := by
  constructor
  · intro h
    exact absurd rfl h
  · intro st hst
    exact absurd hst (by simp [SilenceDetector.init])

lemma silenceInv_reset (s : SilenceState) (now t : ℚ) :
    SilenceInv (SilenceDetector.reset s now) t := by
  constructor
  · intro h
    exact absurd (show (SilenceDetector.reset s now).silence_duration = 0 from rfl) h
  · intro st hst
    exact absurd hst (by simp [SilenceDetector.reset])

lemma silenceInv_step (s : SilenceState) (n : ℕ) (v : Bool) (t now : ℚ)
    (hinv : SilenceInv s t) (ht : t ≤ now) :
    SilenceInv (SilenceDetector.process_chunk s n v now).1 now := by
  obtain ⟨h1, h2⟩ := hinv
  simp only [SilenceDetector.process_chunk]
  split_ifs with hz hsp hcs hsil hact hstart
  · -- empty chunk: state unchanged, time advanced
    exact ⟨h1, fun st hst => le_trans (h2 st hst) (by linarith)⟩
  · -- speech onset (≥2 consecutive speech)
    constructor
    · intro h
      exact absurd rfl h
    · intro st hst
      exact absurd hst (by simp)
  · -- speech but below onset threshold: only counters change
    exact ⟨h1, fun st hst => le_trans (h2 st hst) (by linarith)⟩
  · -- silence confirmed and speech was active: start the silence timer
    constructor
    · intro h
      have := h1 h
      simp at this
      exact absurd hact (by simp [this.1])
    · intro st hst
      simp only [Option.some.injEq] at hst
      subst hst
      by_cases hd0 : s.silence_duration = 0
      · simp [hd0]
      · have := (h1 hd0).1
        simp only at hact
        rw [this] at hact
        exact absurd hact (by simp)
  · -- silence confirmed, inactive, timer running: update duration
    constructor
    · intro _
      refine ⟨by simpa using hact, ?_⟩
      intro hnone
      rw [hnone] at hstart
      simp at hstart
    · intro st hst
      simp only at hst
      rw [hst] at hstart ⊢
      simp [Option.getD_some]
  · -- silence confirmed, inactive, no (truthy) timer: only counters change
    exact ⟨h1, fun st hst => le_trans (h2 st hst) (by linarith)⟩
  · -- silence below threshold: only counters change
    exact ⟨h1, fun st hst => le_trans (h2 st hst) (by linarith)⟩

lemma silence_nondecreasing_step (s : SilenceState) (n : ℕ) (v : Bool) (t now : ℚ)
    (hinv : SilenceInv s t) (ht : t ≤ now)
    (hpre : s.speech_active = false)
    (hpost : (SilenceDetector.process_chunk s n v now).1.speech_active = false) :
    s.silence_duration ≤ (SilenceDetector.process_chunk s n v now).1.silence_duration := by
  obtain ⟨h1, h2⟩ := hinv
  simp only [SilenceDetector.process_chunk] at hpost ⊢
  split_ifs at hpost ⊢ with hz hsp hcs hsil hact hstart
  -- In every branch the duration is either unchanged (`le_refl`) or is the
  -- updated `now - silence_start` of the timer-running branch, which dominates
  -- the old duration by the invariant and monotone time.
  all_goals first
    | exact le_refl _
    | (rcases hs : s.silence_start with _ | st
       · simp [hs] at hstart
       · have hd := h2 st hs
         show s.silence_duration ≤ now - (some st).getD 0
         simp only [Option.getD_some]
         linarith)

lemma silence_becomes_nonzero_step (s : SilenceState) (n : ℕ) (v : Bool) (now : ℚ)
    (hzero : s.silence_duration = 0)
    (hnz : (SilenceDetector.process_chunk s n v now).1.silence_duration ≠ 0) :
    3 ≤ s.consecutive_silence + 1 ∧ s.speech_active = false ∧ s.silence_start ≠ none := by
  simp only [SilenceDetector.process_chunk] at hnz
  split_ifs at hnz with hz hsp hcs hsil hact hstart
  · exact absurd hzero hnz
  · simp at hnz
  · exact absurd hzero hnz
  · exact absurd hzero hnz
  · refine ⟨by simpa using hsil, by simpa using hact, ?_⟩
    intro hnone
    rw [hnone] at hstart
    simp at hstart
  · exact absurd hzero hnz
  · exact absurd hzero hnz

lemma silence_start_provenance_step (s : SilenceState) (n : ℕ) (v : Bool) (now : ℚ)
    (hch : (SilenceDetector.process_chunk s n v now).1.silence_start ≠ s.silence_start) :
    (SilenceDetector.process_chunk s n v now).1.silence_start = none
    ∨ ((SilenceDetector.process_chunk s n v now).1.silence_start = some now
        ∧ s.speech_active = true ∧ 3 ≤ s.consecutive_silence + 1) := by
  simp only [SilenceDetector.process_chunk] at hch ⊢
  split_ifs at hch ⊢ with hz hsp hcs hsil hact hstart
  · exact absurd rfl hch
  · left; rfl
  · exact absurd rfl hch
  · right
    exact ⟨rfl, by simpa using hact, by simpa using hsil⟩
  · exact absurd rfl hch
  · exact absurd rfl hch
  · exact absurd rfl hch

lemma silence_speech_onset_step (s : SilenceState) (n : ℕ) (v : Bool) (now : ℚ)
    (hn : n ≠ 0)
    (hsp : (decide (frame_size s.sample_rate ≤ n) && v) = true)
    (honset : 2 ≤ s.consecutive_speech + 1) :
    (SilenceDetector.process_chunk s n v now).1.silence_duration = 0 := by
  simp only [SilenceDetector.process_chunk]
  split_ifs with hz
  · exact absurd hz hn
  · rfl

/-- C6: the `SilenceDetector` state invariant — a nonzero `silence_duration`
only with `speech_active = false` and a set `silence_start` — holds after
`__init__`/`reset` and is preserved by every `process_chunk` call (with
non-decreasing time). Moreover `silence_duration` becomes nonzero only on the
≥ 3rd consecutive non-speech classification while inactive with a silence
timer set (a timer that, by the provenance conjunct, can only have been
started by a prior speech-active period ending); it is reset to 0 on speech
onset (≥ 2 consecutive speech classifications); and it is non-decreasing
across calls while `speech_active` remains false. -/
theorem silence_detector_invariant :
    (∀ (sr : ℕ) (now t : ℚ), SilenceInv (SilenceDetector.init sr now) t)
    ∧ (∀ (s : SilenceState) (now t : ℚ), SilenceInv (SilenceDetector.reset s now) t)
    ∧ (∀ (s : SilenceState) (n : ℕ) (v : Bool) (t now : ℚ),
        SilenceInv s t → t ≤ now →
        SilenceInv (SilenceDetector.process_chunk s n v now).1 now)
    ∧ (∀ (s : SilenceState) (n : ℕ) (v : Bool) (t now : ℚ),
        SilenceInv s t → t ≤ now →
        s.speech_active = false →
        (SilenceDetector.process_chunk s n v now).1.speech_active = false →
        s.silence_duration ≤ (SilenceDetector.process_chunk s n v now).1.silence_duration)
    ∧ (∀ (s : SilenceState) (n : ℕ) (v : Bool) (now : ℚ),
        s.silence_duration = 0 →
        (SilenceDetector.process_chunk s n v now).1.silence_duration ≠ 0 →
        3 ≤ s.consecutive_silence + 1 ∧ s.speech_active = false ∧ s.silence_start ≠ none)
    ∧ (∀ (s : SilenceState) (n : ℕ) (v : Bool) (now : ℚ),
        (SilenceDetector.process_chunk s n v now).1.silence_start ≠ s.silence_start →
        (SilenceDetector.process_chunk s n v now).1.silence_start = none
        ∨ ((SilenceDetector.process_chunk s n v now).1.silence_start = some now
            ∧ s.speech_active = true ∧ 3 ≤ s.consecutive_silence + 1))
    ∧ (∀ (s : SilenceState) (n : ℕ) (v : Bool) (now : ℚ),
        n ≠ 0 → (decide (frame_size s.sample_rate ≤ n) && v) = true →
        2 ≤ s.consecutive_speech + 1 →
        (SilenceDetector.process_chunk s n v now).1.silence_duration = 0) :=
  ⟨silenceInv_init, silenceInv_reset, silenceInv_step, silence_nondecreasing_step,
    silence_becomes_nonzero_step, silence_start_provenance_step, silence_speech_onset_step⟩

theorem silence_detector_invariant_witness :
    SilenceInv (SilenceDetector.init 8000 0) 0
    ∧ (0 : ℚ) ≤ 1
    ∧ SilenceInv (SilenceDetector.process_chunk (SilenceDetector.init 8000 0) 800 false 1).1 1 :=
  ⟨silence_detector_invariant.1 8000 0 0, by norm_num,
    silence_detector_invariant.2.2.1 (SilenceDetector.init 8000 0) 800 false 0 1
      (silence_detector_invariant.1 8000 0 0) (by norm_num)⟩

/-! ## Heuristic greeting analysis — `llm.LLMGreetingAnalyzer._heuristic_analysis`

`text.lower()` is `Char.toLower` mapped over the characters (ASCII phrases
only are compared), and Python's substring test `indicator in text_lower` is
`substrMem`. -/

/-- `text.lower()` as a character list. -/
def lowerChars (s : String) : List Char := s.toList.map Char.toLower

/-- Python's `needle in hay` substring containment. -/
def substrMem (hay needle : List Char) : Bool :=
  (List.range (hay.length + 1)).any fun i => needle.isPrefixOf (hay.drop i)

/-- The `complete_indicators` phrase list from `_heuristic_analysis`. -/
def complete_indicators : List String :=
  ["leave a message", "after the beep", "after the tone", "call me back",
   "thank you", "goodbye", "leave your name", "i\x27ll call you",
   "message after", "beep and then"]

/-- The `incomplete_indicators` phrase list from `_heuristic_analysis`. -/
def incomplete_indicators : List String :=
  ["hi this is", "hello this is", "you\x27ve reached", "i am", "my name is",
   "i\x27m not available", "sorry i missed"]

/-- `sum(1 for indicator in indicators if indicator in text_lower)`. -/
def indicatorScore (indicators : List String) (text_lower : List Char) : ℕ :=
  (indicators.filter (fun ind => substrMem text_lower ind.toList)).length

/-- `LLMGreetingAnalyzer._heuristic_analysis(text)`:
`complete_score > incomplete_score or (complete_score > 0 and len(text) > 10)`
(the length test is on the original `text`, the scores on `text.lower()`). -/
def heuristic_analysis (text : String) : Bool :=
  decide (indicatorScore incomplete_indicators (lowerChars text)
            < indicatorScore complete_indicators (lowerChars text))
  || (decide (0 < indicatorScore complete_indicators (lowerChars text))
      && decide (10 < text.length))

/-- C7: the heuristic fallback judges an excerpt complete iff the number of
complete-indicator phrases present exceeds the number of incomplete-indicator
phrases present, or at least one complete indicator is present and the
excerpt is longer than 10 characters; in particular the excerpt
"Hi this is Mike please leave a message after the beep" (the two context
fragments of the scenario concatenated) is judged complete even though an
incomplete indicator ("hi this is") is present. -/
theorem heuristic_completeness_rule :
    (∀ text : String, heuristic_analysis text = true ↔
      (indicatorScore incomplete_indicators (lowerChars text)
          < indicatorScore complete_indicators (lowerChars text)
        ∨ (0 < indicatorScore complete_indicators (lowerChars text)
            ∧ 10 < text.length)))
    ∧ heuristic_analysis "Hi this is Mike please leave a message after the beep" = true
    ∧ 0 < indicatorScore incomplete_indicators
        (lowerChars "Hi this is Mike please leave a message after the beep") := by
  refine ⟨?_, by decide, by decide⟩
  intro text
  simp [heuristic_analysis]
